import Mathlib

/-!
Verification development for the `commit_analyzer` repository
(`src/commit_analyzer/commit_analyzer.py`).

The Python source is shallowly embedded below.  Strings are Lean `String`s,
Python lists are Lean `List`s, Python `set`s are modelled as duplicate-free
lists built with `pySetAdd` (Python set iteration order is arbitrary; every
result a claim talks about is independent of that order), Python `dict`s are
association lists built with `updAssoc` (which preserves Python's insertion
order), and Python exceptions (`IndexError`, `StopIteration`, `KeyError`)
are modelled with `Option`/`Except`.  The diff parser and the line
classifier take the list of lines of the diff, mirroring the source's
`diff.split('\n')`.  String primitives are re-implemented over `List Char`
by structural recursion so that every definition evaluates inside the
kernel.
-/

/-- Prefix test on character lists. -/
def chPre : List Char → List Char → Bool
  | [], _ => true
  | _ :: _, [] => false
  | a :: as, b :: bs => a = b && chPre as bs

/-- Python `s.startswith(pre)`. -/
def pyStartsWith (pre s : String) : Bool :=
  chPre pre.toList s.toList

/-- Python `needle in haystack` substring test. -/
def pyIn (needle haystack : String) : Bool :=
  (List.range (haystack.toList.length + 1)).any
    (fun i => chPre needle.toList (haystack.toList.drop i))

/-- Splitting worker for `pySplitOn`; the fuel argument makes the recursion
structural (one unit per consumed character; the separator is non-empty in
every use). -/
def chSplitOnAux (sep : List Char) : Nat → List Char → List Char →
    List (List Char)
  | _, [], acc => [acc.reverse]
  | 0, s, acc => [acc.reverse ++ s]
  | fuel + 1, c :: rest, acc =>
      if chPre sep (c :: rest) then
        acc.reverse :: chSplitOnAux sep fuel ((c :: rest).drop sep.length) []
      else chSplitOnAux sep fuel rest (c :: acc)

/-- Python `s.split(sep)` for a non-empty separator. -/
def pySplitOn (s sep : String) : List String :=
  (chSplitOnAux sep.toList s.toList.length s.toList []).map String.mk

/-- Whitespace-splitting worker for `pySplitWs`. -/
def chSplitWsAux : List Char → List Char → List (List Char)
  | [], acc => [acc.reverse]
  | c :: rest, acc =>
      if c.isWhitespace then acc.reverse :: chSplitWsAux rest []
      else chSplitWsAux rest (c :: acc)

/-- Python `s.split()` (no separator): split on whitespace runs, dropping
empty pieces. -/
def pySplitWs (s : String) : List String :=
  ((chSplitWsAux s.toList []).map String.mk).filter (fun p => p ≠ "")

/-- Python `s.join(l)`. -/
def pyJoin (sep : String) (l : List String) : String :=
  String.mk (List.intercalate sep.toList (l.map String.toList))

/-- Python `s.split(sep, 1)`: split only at the first occurrence. -/
def pySplitOnce (s sep : String) : List String :=
  match pySplitOn s sep with
  | [] => []
  | [x] => [x]
  | x :: rest => [x, pyJoin sep rest]

/-- Python `s.strip()`. -/
def pyStrip (s : String) : String :=
  String.mk
    (((s.toList.dropWhile Char.isWhitespace).reverse.dropWhile
        Char.isWhitespace).reverse)

/-- Python `s.lower()` (per-character lowering; all inputs of interest are
ASCII). -/
def pyLower (s : String) : String :=
  String.mk (s.toList.map Char.toLower)

/-- Python `s[n:]`. -/
def pyDropStr (s : String) (n : Nat) : String :=
  String.mk (s.toList.drop n)

/-- Last index of the character `c` in `s`, as Python `s.rfind(c)`
(`-1` when absent, encoded as `none`). -/
def pyRfind (s : String) (c : Char) : Option Nat :=
  ((s.toList.enum.filter (fun p => p.2 = c)).map (fun p => p.1)).getLast?

/-- Extension part of Python `os.path.splitext` (posixpath): the suffix from
the last `.` of the basename, except when the basename consists only of
leading dots up to that point. -/
def pySplitextExt (p : String) : String :=
  let sepIdx : Int := match pyRfind p '/' with | some i => (i : Int) | none => -1
  let dotIdx : Int := match pyRfind p '.' with | some i => (i : Int) | none => -1
  if sepIdx < dotIdx then
    let lo := (sepIdx + 1).toNat
    let hi := dotIdx.toNat
    if ((p.toList.take hi).drop lo).any (fun c => c ≠ '.') then
      String.mk (p.toList.drop hi)
    else ""
  else ""

/-- Python `os.path.dirname` for POSIX paths. -/
def pyDirname (p : String) : String :=
  let i := match pyRfind p '/' with | some i => i + 1 | none => 0
  let head := String.mk (p.toList.take i)
  if head ≠ "" ∧ head.toList.any (fun c => c ≠ '/') then
    String.mk (head.toList.reverse.dropWhile (fun c => c = '/') |>.reverse)
  else head

/-- Python `os.path.basename` for POSIX paths. -/
def pyBasename (p : String) : String :=
  let i := match pyRfind p '/' with | some i => i + 1 | none => 0
  String.mk (p.toList.drop i)

/-- Longest common prefix of two character lists. -/
def lcpChars : List Char → List Char → List Char
  | a :: as, b :: bs => if a = b then a :: lcpChars as bs else []
  | _, _ => []

/-- Python `os.path.commonprefix`: longest common string prefix of a list. -/
def pyCommonPfx : List String → String
  | [] => ""
  | x :: xs => xs.foldl (fun acc s => String.mk (lcpChars acc.toList s.toList)) x

/-- Strict lexicographic comparison of character lists (Python `<` on
strings, restricted to code-point order). -/
def chLt : List Char → List Char → Bool
  | [], [] => false
  | [], _ :: _ => true
  | _ :: _, [] => false
  | a :: as, b :: bs => if a < b then true else if b < a then false else chLt as bs

/-- Python `dict` update `d[k] = f(d.get(k, dflt))`, preserving insertion
order of keys as Python dicts do. -/
def updAssoc {τ : Type} (k : String) (f : τ → τ) (dflt : τ) :
    List (String × τ) → List (String × τ)
  | [] => [(k, f dflt)]
  | (k', v) :: rest =>
      if k' = k then (k', f v) :: rest else (k', v) :: updAssoc k f dflt rest

/-- Python `set.add`, modelled on a duplicate-free list. -/
def pySetAdd {α : Type} [DecidableEq α] (a : α) (l : List α) : List α :=
  if a ∈ l then l else l ++ [a]

/-- Stable descending insertion by count, used by `pySortedDesc`. -/
def insDesc (x : String × Nat) : List (String × Nat) → List (String × Nat)
  | [] => [x]
  | y :: ys => if x.2 < y.2 then y :: insDesc x ys else x :: y :: ys

/-- Stable descending sort by count, as Python
`sorted(items, key=lambda x: x[1], reverse=True)` over dict items. -/
def pySortedDesc : List (String × Nat) → List (String × Nat)
  | [] => []
  | x :: xs => insDesc x (pySortedDesc xs)

/-- Most frequent entry of a frequency table: the earliest entry whose count
is maximal.  This is the reading of the specification's "most frequent
type/scope"; `head_pySortedDesc` relates it to the code's
sort-then-take-first. -/
def mostFreq : List (String × Nat) → Option (String × Nat)
  | [] => none
  | x :: xs =>
      match mostFreq xs with
      | none => some x
      | some m => if x.2 < m.2 then some m else some x

/-- Ascending insertion for `pySortedStr`. -/
def insAsc (x : String) : List String → List String
  | [] => [x]
  | y :: ys => if chLt y.toList x.toList then y :: insAsc x ys else x :: y :: ys

/-- Python `sorted` on a list of strings (code-point order). -/
def pySortedStr : List String → List String
  | [] => []
  | x :: xs => insAsc x (pySortedStr xs)

/-- Option-valued left fold: the shallow embedding of a Python loop whose
body can raise an exception. -/
def foldOpt {σ α : Type} (step : σ → α → Option σ) : σ → List α → Option σ
  | s, [] => some s
  | s, a :: l =>
      match step s a with
      | none => none
      | some s' => foldOpt step s' l

/-- Result record of `analyze_file_changes` (source lines 190-238).
`added_files`/`deleted_files` hold `Option String` because the Python code
adds `current_file` to them, which is `None` before any diff header. -/
structure FileChangesRec where
  files : List String := []
  added_files : List (Option String) := []
  deleted_files : List (Option String) := []
  modified_files : List String := []
  renamed_files : List (String × String) := []
  file_types : List (String × List String) := []
  content_changes : List (String × (List String × List String)) := []
deriving Repr, DecidableEq

instance : Inhabited FileChangesRec := ⟨{}⟩

/-- Loop body of `analyze_file_changes` for one diff line.  `allLines` is the
full line list of the diff: the `rename from` branch searches it from the
start for the first `rename to` line (source line 222).  `none` models the
exceptions the Python code can raise there (`IndexError` from `split`,
`StopIteration` from `next`). -/
def fileChangesStep (allLines : List String)
    (st : FileChangesRec × Option String) (line : String) :
    Option (FileChangesRec × Option String) :=
  let ch := st.1
  let cur := st.2
  if pyStartsWith "diff --git" line then
    let parts := pySplitWs line
    match parts.get? 2, parts.get? 3 with
    | some _, some bp =>
        -- a_path := parts[2][2:] is computed by the source but unused
        let cf := pyDropStr bp 2
        some ({ ch with
                files := pySetAdd cf ch.files,
                file_types :=
                  updAssoc (pySplitextExt cf) (fun s => pySetAdd cf s) []
                    ch.file_types },
              some cf)
    | _, _ => none
  else if pyStartsWith "new file mode" line then
    some ({ ch with added_files := pySetAdd cur ch.added_files }, cur)
  else if pyStartsWith "deleted file mode" line then
    some ({ ch with deleted_files := pySetAdd cur ch.deleted_files }, cur)
  else if pyStartsWith "rename from" line then
    match (pySplitOn line " ").get? 2 with
    | none => none
    | some oldf =>
        match allLines.find? (fun l => pyStartsWith "rename to" l) with
        | none => none
        | some nl =>
            match (pySplitOn nl " ").get? 2 with
            | none => none
            | some newf =>
                some ({ ch with
                        renamed_files := pySetAdd (oldf, newf) ch.renamed_files },
                      cur)
  else if pyStartsWith "+" line ∧ ¬ pyStartsWith "+++" line then
    match cur with
    | some f =>
        some ({ ch with
                content_changes :=
                  updAssoc f (fun p => (p.1 ++ [pyDropStr line 1], p.2)) ([], [])
                    ch.content_changes },
              cur)
    | none => some (ch, cur)
  else if pyStartsWith "-" line ∧ ¬ pyStartsWith "---" line then
    match cur with
    | some f =>
        some ({ ch with
                content_changes :=
                  updAssoc f (fun p => (p.1, p.2 ++ [pyDropStr line 1])) ([], [])
                    ch.content_changes },
              cur)
    | none => some (ch, cur)
  else some (ch, cur)

/-- Final step of `analyze_file_changes` (source lines 234-236):
`modified_files = files - added_files - deleted_files - all_renamed`. -/
def finalizeFileChanges (ch : FileChangesRec) : FileChangesRec :=
  let renPaths :=
    ch.renamed_files.map Prod.fst ++ ch.renamed_files.map Prod.snd
  { ch with
    modified_files :=
      ch.files.filter (fun f =>
        decide (some f ∉ ch.added_files ∧ some f ∉ ch.deleted_files ∧
          f ∉ renPaths)) }

/-- Embedding of `analyze_file_changes` applied to `diff.split('\n')`. -/
def analyzeFileChangesLines (lines : List String) : Option FileChangesRec :=
  (foldOpt (fileChangesStep lines) ({}, none) lines).map
    (fun st => finalizeFileChanges st.1)

/-- Embedding of `analyze_file_changes` on the raw diff text. -/
def analyzeFileChanges (diff : String) : Option FileChangesRec :=
  analyzeFileChangesLines (pySplitOn diff "\n")

/-- Category and metric accumulator of `analyze_diff_changes`
(source lines 242-271).  `feature_details` and several metric counters are
initialized by the source but never written on any path embedded here; they
are kept for fidelity. -/
structure CodeChanges where
  security : List String := []
  features : List String := []
  fixes : List String := []
  refactors : List String := []
  performance : List String := []
  components : List String := []
  dependencies : List String := []
  scripts : List String := []
  tests : List String := []
  docs : List String := []
  config : List String := []
  style : List String := []
  added_lines : List String := []
  removed_lines : List String := []
  feature_details : List (String × List String) := []
  semantic_changes : List (String × List String) := []
  lines_added : Nat := 0
  lines_removed : Nat := 0
  files_changed : Nat := 0
  complexity_changes : Nat := 0
  functions_added : Nat := 0
  functions_modified : Nat := 0
  classes_added : Nat := 0
  classes_modified : Nat := 0
  imports_added : Nat := 0
  imports_removed : Nat := 0
deriving Repr, DecidableEq

instance : Inhabited CodeChanges := ⟨{}⟩

/-- Append one semantic-change note for `file`
(`changes['semantic_changes'][file].append(note)`). -/
def addNote (file note : String) (ch : CodeChanges) : CodeChanges :=
  { ch with
    semantic_changes :=
      updAssoc file (fun l => l ++ [note]) [] ch.semantic_changes }

/-- Identifier extraction `line.split(kw)[1].split('(')[0].strip()` used for
`def `/`class ` lines; the call sites guard `kw in line`, so index 1 exists. -/
def pyExtractName (kw line : String) : String :=
  pyStrip (((pySplitOn line kw).getD 1 "" |> (pySplitOn · "(")).headD "")

/-- Word character of Python's `\w` (ASCII range; all analysed text is
ASCII). -/
def isWordChar (c : Char) : Bool :=
  c.isAlphanum || c = '_'

/-- Matching of `\s*\w+` directly after a `#`, for the docs rule's
`#\s*\w+` alternative. -/
def afterHash : List Char → Bool
  | [] => false
  | c :: rest =>
      if isWordChar c then true
      else if c.isWhitespace then afterHash rest
      else false

/-- Search for `#\s*\w+` anywhere in the character list. -/
def hashWord : List Char → Bool
  | [] => false
  | c :: rest => (c = '#' && afterHash rest) || hashWord rest

/-- Docs rule `re.search(r'"""|\'\'\'|#\s*\w+', line)` (source line 690);
this regex is case-sensitive. -/
def docsPat (line : String) : Bool :=
  pyIn "\"\"\"" line || pyIn "'''" line || hashWord line.toList

/-- Case-insensitive keyword alternation `re.search(kw1|kw2|..., line, re.I)`
for keyword patterns without metacharacters. -/
def kwSearch (kws : List String) (line : String) : Bool :=
  kws.any (fun kw => pyIn kw (pyLower line))

/-- Import rule `re.search(r'^import\s+|^from\s+.*\s+import\s+', line)`
(source line 685; case-sensitive, anchored at the line start). -/
def importPat (line : String) : Bool :=
  let l := line.toList
  (chPre "import".toList l && (l.getD 6 'x').isWhitespace)
  || (chPre "from".toList l && (l.getD 4 'x').isWhitespace &&
      (List.range (l.length + 1)).any (fun j =>
        decide (6 ≤ j) && (l.getD (j - 1) 'x').isWhitespace &&
        chPre "import".toList (l.drop j) &&
        (l.getD (j + 6) 'x').isWhitespace))

/-- Security rule keyword set (source line 700): note the source matches
`crypt`, not the specification's `login`. -/
def securityPat (line : String) : Bool :=
  kwSearch ["password", "secret", "key", "token", "auth", "crypt"] line

/-- Config rule (source line 695); `\.env` etc. have escaped dots, so all
alternatives are literal substrings. -/
def configPat (line : String) : Bool :=
  kwSearch ["config", "settings", "env", ".env", ".json", ".yaml", ".yml"] line

/-- Fix rule (source line 705). -/
def fixPat (line : String) : Bool :=
  kwSearch ["fix", "bug", "error", "exception", "issue", "crash", "problem"] line

/-- Performance rule (source line 710). -/
def perfPat (line : String) : Bool :=
  kwSearch ["performance", "optimize", "speed", "memory", "cpu", "cache"] line

/-- Refactor rule (source line 715). -/
def refactorPat (line : String) : Bool :=
  kwSearch ["refactor", "cleanup", "improve", "enhance", "update"] line

/-- Embedding of `analyze_line_content` (source lines 662-717): the
first-match-wins elif chain applied to one added line. -/
def analyzeLineContent (line file : String) (ch : CodeChanges) : CodeChanges :=
  if pyIn "def " line then
    let func_name := pyExtractName "def " line
    if pyIn "test_" func_name then
      addNote file ("add test function " ++ func_name)
        { ch with tests := ch.tests ++ [file] }
    else
      addNote file ("add function " ++ func_name)
        { ch with features := ch.features ++ [file] }
  else if pyIn "class " line then
    let class_name := pyExtractName "class " line
    if pyIn "Test" class_name then
      addNote file ("add test class " ++ class_name)
        { ch with tests := ch.tests ++ [file] }
    else
      addNote file ("add class " ++ class_name)
        { ch with features := ch.features ++ [file] }
  else if importPat line then
    addNote file "update dependencies"
      { ch with dependencies := ch.dependencies ++ [file] }
  else if docsPat line then
    addNote file "update documentation" { ch with docs := ch.docs ++ [file] }
  else if configPat line then
    addNote file "update configuration" { ch with config := ch.config ++ [file] }
  else if securityPat line then
    addNote file "enhance security" { ch with security := ch.security ++ [file] }
  else if fixPat line then
    addNote file "fix issues" { ch with fixes := ch.fixes ++ [file] }
  else if perfPat line then
    addNote file "improve performance"
      { ch with performance := ch.performance ++ [file] }
  else if refactorPat line then
    addNote file "refactor code" { ch with refactors := ch.refactors ++ [file] }
  else ch

/-- Kind tag of the `(type, line)` tuples collected in `context_lines`. -/
inductive LineKind where
  | add
  | remove
  | context
deriving Repr, DecidableEq

/-- Python slice `ls[max(0, i-2):min(len(ls), i+3)]` of surrounding lines. -/
def surrounding (ls : List String) (i : Nat) : List String :=
  (ls.take (i + 3)).drop (i - 2)

/-- Function pass of `analyze_context` (source lines 730-743). -/
def ctxFuncPass (file : String) (cl : List String) (ch : CodeChanges) :
    CodeChanges :=
  cl.enum.foldl (fun ch p =>
    let i := p.1
    let line := p.2
    if pyIn "def " line then
      let func_name := pyExtractName "def " line
      let surr := surrounding cl i
      if surr.any (fun l => pyIn "test" (pyLower l)) then
        addNote file ("add test for " ++ func_name)
          { ch with tests := ch.tests ++ [file] }
      else if surr.any (fun l => pyIn "doc" (pyLower l) || pyIn "\"\"\"" l) then
        addNote file ("add documentation for " ++ func_name)
          { ch with docs := ch.docs ++ [file] }
      else
        addNote file ("add " ++ func_name ++ " function")
          { ch with features := ch.features ++ [file] }
    else ch) ch

/-- Class pass of `analyze_context` (source lines 746-759). -/
def ctxClassPass (file : String) (cl : List String) (ch : CodeChanges) :
    CodeChanges :=
  cl.enum.foldl (fun ch p =>
    let i := p.1
    let line := p.2
    if pyIn "class " line then
      let class_name := pyExtractName "class " line
      let surr := surrounding cl i
      if surr.any (fun l => pyIn "test" (pyLower l)) then
        addNote file ("add test class " ++ class_name)
          { ch with tests := ch.tests ++ [file] }
      else if surr.any (fun l => pyIn "model" (pyLower l) || pyIn "schema" (pyLower l)) then
        addNote file ("add " ++ class_name ++ " model")
          { ch with components := ch.components ++ [file] }
      else
        addNote file ("add " ++ class_name ++ " class")
          { ch with features := ch.features ++ [file] }
    else ch) ch

/-- Keyword alternation of the configuration pass (source line 763). -/
def ctxConfigKw (l : String) : Bool :=
  ["config", "settings", "env"].any (fun kw => pyIn kw (pyLower l))

/-- Keyword alternation of the dependency pass (source line 777). -/
def ctxDepKw (l : String) : Bool :=
  ["import ", "from ", "require"].any (fun kw => pyIn kw (pyLower l))

/-- Keyword alternation of the test pass (source line 788). -/
def ctxTestKw (l : String) : Bool :=
  ["test_", "assert", "pytest", "unittest"].any (fun kw => pyIn kw (pyLower l))

/-- Keyword alternation of the documentation pass (source line 799). -/
def ctxDocsKw (l : String) : Bool :=
  ["\"\"\"", "'''", "#", "docstring"].any (fun kw => pyIn kw (pyLower l))

/-- Configuration pass of `analyze_context` (source lines 762-773). -/
def ctxConfigPass (file : String) (cl : List String) (ch : CodeChanges) :
    CodeChanges :=
  cl.enum.foldl (fun ch p =>
    let i := p.1
    let line := p.2
    if ctxConfigKw line then
      let surr := surrounding cl i
      if surr.any (fun l => pyIn "test" (pyLower l)) then
        addNote file "add test configuration"
          { ch with tests := ch.tests ++ [file] }
      else if surr.any (fun l => pyIn "security" (pyLower l) || pyIn "auth" (pyLower l)) then
        addNote file "add security configuration"
          { ch with security := ch.security ++ [file] }
      else
        addNote file "add configuration"
          { ch with config := ch.config ++ [file] }
    else ch) ch

/-- Dependency pass of `analyze_context` (source lines 776-784). -/
def ctxDepPass (file : String) (cl : List String) (ch : CodeChanges) :
    CodeChanges :=
  cl.enum.foldl (fun ch p =>
    let i := p.1
    let line := p.2
    if ctxDepKw line then
      let surr := surrounding cl i
      if surr.any (fun l => pyIn "test" (pyLower l)) then
        addNote file "add test dependencies"
          { ch with tests := ch.tests ++ [file] }
      else
        addNote file "add dependencies"
          { ch with dependencies := ch.dependencies ++ [file] }
    else ch) ch

/-- Test pass of `analyze_context` (source lines 787-795). -/
def ctxTestPass (file : String) (cl : List String) (ch : CodeChanges) :
    CodeChanges :=
  cl.enum.foldl (fun ch p =>
    let i := p.1
    let line := p.2
    if ctxTestKw line then
      let surr := surrounding cl i
      if surr.any (fun l => pyIn "mock" (pyLower l) || pyIn "patch" (pyLower l)) then
        addNote file "add mock tests" { ch with tests := ch.tests ++ [file] }
      else
        addNote file "add tests" { ch with tests := ch.tests ++ [file] }
    else ch) ch

/-- Documentation pass of `analyze_context` (source lines 798-806). -/
def ctxDocsPass (file : String) (cl : List String) (ch : CodeChanges) :
    CodeChanges :=
  cl.enum.foldl (fun ch p =>
    let i := p.1
    let line := p.2
    if ctxDocsKw line then
      let surr := surrounding cl i
      if surr.any (fun l => pyIn "api" (pyLower l) || pyIn "endpoint" (pyLower l)) then
        addNote file "add API documentation" { ch with docs := ch.docs ++ [file] }
      else
        addNote file "add documentation" { ch with docs := ch.docs ++ [file] }
    else ch) ch

/-- Embedding of `analyze_context` (source lines 719-806).  The source also
binds `added_lines`/`removed_lines` locals that it never uses; only the
`'context'`-kind lines drive the six passes. -/
def analyzeContext (ch : CodeChanges) (file : String)
    (context_lines : List (LineKind × String)) : CodeChanges :=
  if context_lines = [] then ch
  else
    let cl := (context_lines.filter (fun p => p.1 = LineKind.context)).map
      (fun p => p.2)
    ctxDocsPass file cl
      (ctxTestPass file cl
        (ctxDepPass file cl
          (ctxConfigPass file cl
            (ctxClassPass file cl
              (ctxFuncPass file cl ch)))))

/-- Loop body of `analyze_diff_changes` (source lines 278-313) for one line.
State: accumulated changes, `current_file`, `context_lines`. -/
def diffStep (st : CodeChanges × Option String × List (LineKind × String))
    (line : String) :
    Option (CodeChanges × Option String × List (LineKind × String)) :=
  let ch := st.1
  let cur := st.2.1
  let ctx := st.2.2
  if pyStartsWith "diff --git" line then
    let ch :=
      match cur with
      | some f => if ctx ≠ [] then analyzeContext ch f ctx else ch
      | none => ch
    match (pySplitOn line " ").get? 2 with
    | none => none
    | some p =>
        some ({ ch with files_changed := ch.files_changed + 1 },
              some (pyDropStr p 2), [])
  else if pyStartsWith "+" line ∧ ¬ pyStartsWith "+++" line then
    let content := pyDropStr line 1
    let ch := { ch with
                added_lines := ch.added_lines ++ [content],
                lines_added := ch.lines_added + 1 }
    let ctx := ctx ++ [(LineKind.add, content)]
    match cur with
    | some f => some (analyzeLineContent content f ch, cur, ctx)
    | none => some (ch, cur, ctx)
  else if pyStartsWith "-" line ∧ ¬ pyStartsWith "---" line then
    let content := pyDropStr line 1
    let ch := { ch with
                removed_lines := ch.removed_lines ++ [content],
                lines_removed := ch.lines_removed + 1 }
    let ctx := ctx ++ [(LineKind.remove, content)]
    match cur with
    | some f =>
        if pyIn "def " content then
          let func_name := pyExtractName "def " content
          some (addNote f ("modify " ++ func_name ++ " function")
                  { ch with functions_modified := ch.functions_modified + 1 },
                cur, ctx)
        else if pyIn "class " content then
          let class_name := pyExtractName "class " content
          some (addNote f ("modify " ++ class_name ++ " class")
                  { ch with classes_modified := ch.classes_modified + 1 },
                cur, ctx)
        else some (ch, cur, ctx)
    | none => some (ch, cur, ctx)
  else some (ch, cur, ctx ++ [(LineKind.context, line)])

/-- Embedding of `analyze_diff_changes` (source lines 240-318).  The
`original_content` parameter is accepted by the source but never read. -/
def analyzeDiffChanges (diff_lines : List String)
    (_originalContent : List (String × String)) : Option CodeChanges :=
  (foldOpt diffStep ({}, none, []) diff_lines).map (fun st =>
    match st.2.1 with
    | some f => if st.2.2 ≠ [] then analyzeContext st.1 f st.2.2 else st.1
    | none => st.1)

/-- Learned-pattern tables of `learn_from_github_commits` (source lines
324-329).  A field holds `none` when the corresponding dict access would
raise `KeyError` — i.e. when the function returned the bare `{}` of its
failure path (source line 364). -/
structure CommitPatterns where
  types? : Option (List (String × Nat)) := none
  scopes? : Option (List (String × Nat)) := none
  descriptions? : Option (List (String × Nat)) := none
  common_patterns? : Option (List (String × Nat)) := none
deriving Repr, DecidableEq

/-- Increment of a `defaultdict(int)` counter. -/
def bump (k : String) (d : List (String × Nat)) : List (String × Nat) :=
  updAssoc k (fun n => n + 1) 0 d

/-- Loop body of `learn_from_github_commits` for one commit message
(source lines 332-359). -/
def learnStep (pat : List (String × Nat) × List (String × Nat) ×
      List (String × Nat) × List (String × Nat)) (msg : String) :
    List (String × Nat) × List (String × Nat) × List (String × Nat) ×
      List (String × Nat) :=
  let message := pyStrip msg
  if message = "" then pat
  else
    match pySplitOnce message ":" with
    | [type_scope0, description0] =>
        let type_scope := pyStrip type_scope0
        let description := pyStrip description0
        let pat :=
          if pyIn "(" type_scope then
            match pySplitOnce type_scope "(" with
            | [commit_type, scope0] =>
                let scope := String.mk
                  (scope0.toList.reverse.dropWhile (fun c => c = ')') |>.reverse)
                (bump (pyStrip commit_type) pat.1,
                 bump (pyStrip scope) pat.2.1, pat.2.2)
            | _ => pat
          else (bump type_scope pat.1, pat.2)
        let words := pySplitWs (pyLower description)
        let pat :=
          (pat.1, pat.2.1,
           (words.zip words.tail).foldl
             (fun cp w => bump (w.1 ++ " " ++ w.2) cp) pat.2.2.2 |>
             (fun cp => (pat.2.2.1, cp)))
        (pat.1, pat.2.1, bump description pat.2.2.1, pat.2.2.2)
    | _ => pat

/-- Embedding of the success path of `learn_from_github_commits` over a
given window of commit messages (the repository access that produces the
window, and the 100-commit truncation, are the external collaborator). -/
def learnFromCommitMessages (msgs : List String) : CommitPatterns :=
  let pat := msgs.foldl learnStep ([], [], [], [])
  { types? := some pat.1, scopes? := some pat.2.1,
    descriptions? := some pat.2.2.1, common_patterns? := some pat.2.2.2 }

/-- Value returned by the failure path of `learn_from_github_commits`
(source line 364): the bare `{}`, with none of the four keys present. -/
def learnFailureResult : CommitPatterns := {}

/-- Lookup failure (`KeyError`) raised by a `patterns[k]` access. -/
inductive LookupErr where
  | keyError (k : String)
deriving Repr, DecidableEq

/-- Embedding of `generate_commit_type` (source lines 366-393).  The
`commit_patterns['types']` access on line 369 happens before any branch, so
a patterns dict without that key raises `KeyError` unconditionally. -/
def generateCommitType (ch : CodeChanges) (_fc : FileChangesRec)
    (pat : CommitPatterns) : Except LookupErr String :=
  match pat.types? with
  | none => .error (.keyError "types")
  | some ts =>
      let common_types := pySortedDesc ts
      .ok <|
        if ch.security ≠ [] then "🔒 security"
        else if ch.fixes ≠ [] then "🐛 fix"
        else if ch.features ≠ [] then "✨ feat"
        else if ch.refactors ≠ [] then "🔄 refactor"
        else if ch.performance ≠ [] then "⚡ perf"
        else if ch.docs ≠ [] then "📚 docs"
        else if ch.tests ≠ [] then "🧪 test"
        else if ch.style ≠ [] then "💅 style"
        else if ch.dependencies ≠ [] then "📦 deps"
        else if ch.scripts ≠ [] then "🔧 chore"
        else
          match common_types.head? with
          | some t => t.1
          | none => "🔧 chore"

/-- First path component `os.path.dirname(f).split('/')[0]` used by
`generate_commit_scope` (source line 403). -/
def topLevelDir (f : String) : String :=
  ((pySplitOn (pyDirname f) "/").headD "")

/-- First path component `f.split('/')[0]` used in the common-prefix
fallback of `generate_commit_scope` (source line 413). -/
def firstComp (f : String) : String :=
  (pySplitOn f "/").headD ""

/-- Embedding of `generate_commit_scope` (source lines 395-422).  The
`commit_patterns['scopes']` access on line 418 is only reached when the
directory-based branches fail, so the `KeyError` is raised lazily. -/
def generateCommitScope (_ch : CodeChanges) (fc : FileChangesRec)
    (pat : CommitPatterns) : Except LookupErr (Option String) :=
  let files := fc.files
  if files = [] then .ok none
  else
    let dirs := files.map topLevelDir
    let common_dirs := dirs.dedup
    if common_dirs.length = 1 then .ok (some (common_dirs.headD ""))
    else
      let pfx := pyCommonPfx (files.map firstComp)
      if pfx ≠ "" then .ok (some pfx)
      else
        match pat.scopes? with
        | none => .error (.keyError "scopes")
        | some ss =>
            match (pySortedDesc ss).head? with
            | some s => .ok (some s.1)
            | none => .ok none

/-- Per-file grouping map of `generate_detailed_commit_description`
(source lines 467-472): notes re-keyed by basename. -/
def fileChangesMap (sem : List (String × List String)) :
    List (String × List String) :=
  sem.foldl (fun m p =>
    p.2.foldl (fun m c => updAssoc (pyBasename p.1) (fun l => l ++ [c]) [] m) m)
    []

/-- Per-file description parts of `generate_detailed_commit_description`
(source lines 475-503). -/
def perFileParts (sem : List (String × List String)) : List String :=
  (fileChangesMap sem).foldl (fun acc p =>
    let file_name := p.1
    let unique_changes := pySortedStr p.2.dedup
    let grouped := unique_changes.foldl
      (fun g c => updAssoc ((pySplitWs c).headD "") (fun l => l ++ [c]) [] g) []
    let file_parts := grouped.foldl (fun fp q =>
      let action := q.1
      let change_list := q.2
      if change_list.length = 1 then fp ++ [change_list.headD ""]
      else
        let common := pyCommonPfx
          (change_list.map (fun c => pyDropStr c action.toList.length))
        if common ≠ "" then
          fp ++ [action ++ common ++ " (" ++ toString change_list.length ++
                 " changes)"]
        else
          let firstTwo := pyJoin ", "
            ((change_list.take 2).map (fun c => pyDropStr c action.toList.length))
          let base := action ++ " " ++ firstTwo
          fp ++ [if 2 < change_list.length then
                   base ++ " and " ++ toString (change_list.length - 2) ++ " more"
                 else base]) []
    if file_parts ≠ [] then
      acc ++ [file_name ++ ": " ++ pyJoin "; " file_parts]
    else acc) []

/-- File-operation summary parts of `generate_detailed_commit_description`
(source lines 506-519). -/
def fileOpsParts (fc : FileChangesRec) : List String :=
  let addP :=
    if fc.added_files ≠ [] then
      let n := fc.added_files.length
      ["add " ++ toString n ++ " file" ++ (if 1 < n then "s" else "")]
    else []
  let delP :=
    if fc.deleted_files ≠ [] then
      let n := fc.deleted_files.length
      ["remove " ++ toString n ++ " file" ++ (if 1 < n then "s" else "")]
    else []
  let renP :=
    if fc.renamed_files ≠ [] then
      let rl := fc.renamed_files.map
        (fun q => pyBasename q.1 ++ " → " ++ pyBasename q.2)
      ["rename " ++ pyJoin ", " rl]
    else []
  let file_ops := addP ++ delP ++ renP
  if file_ops ≠ [] then ["files: " ++ pyJoin "; " file_ops] else []

/-- Description parts before the significance-gated metrics suffix
(source lines 464-519). -/
def descPartsCore (ch : CodeChanges) (fc : FileChangesRec) : List String :=
  perFileParts ch.semantic_changes ++ fileOpsParts fc

/-- Metrics suffix string `({A}+/{B}- lines)` used at source lines 524 and
649. -/
def metricsSuffix (ch : CodeChanges) : String :=
  "(" ++ toString ch.lines_added ++ "+/" ++ toString ch.lines_removed ++
    "- lines)"

/-- Full `desc_parts` list of `generate_detailed_commit_description`
(source lines 464-524): the metrics part is appended only when the combined
line delta exceeds 50 ("Only show for significant changes"). -/
def descParts (ch : CodeChanges) (fc : FileChangesRec) : List String :=
  descPartsCore ch fc ++
    (if 50 < ch.lines_added + ch.lines_removed then [metricsSuffix ch] else [])

/-- Embedding of `generate_detailed_commit_description` (source lines
462-527).  The `commit_patterns` parameter is accepted but never read. -/
def generateDetailedCommitDescription (ch : CodeChanges) (fc : FileChangesRec)
    (_pat : CommitPatterns) : String :=
  let joined := pyJoin "; " (descParts ch fc)
  if joined = "" then "update code" else joined

/-- Access pattern of the "Learned Patterns" report (source lines 630-638):
`commit_patterns['types'] or commit_patterns['scopes'] or
commit_patterns['common_patterns']` with Python short-circuiting, and the
unconditional accesses inside the taken branch. -/
def checkPatterns (p : CommitPatterns) : Except LookupErr Unit :=
  match p.types? with
  | none => .error (.keyError "types")
  | some t =>
      let outer : Except LookupErr Bool :=
        if t ≠ [] then .ok true
        else
          match p.scopes? with
          | none => .error (.keyError "scopes")
          | some s =>
              if s ≠ [] then .ok true
              else
                match p.common_patterns? with
                | none => .error (.keyError "common_patterns")
                | some c => .ok (c ≠ [])
      match outer with
      | .error e => .error e
      | .ok b =>
          if b then
            match p.scopes? with
            | none => .error (.keyError "scopes")
            | some _ =>
                match p.common_patterns? with
                | none => .error (.keyError "common_patterns")
                | some _ => .ok ()
          else .ok ()

/-- Message head `type[(scope)]: description` (source lines 641-644);
`if commit_scope:` treats both `None` and `""` as falsy. -/
def baseMessage (ctype : String) (scope : Option String) (desc : String) :
    String :=
  ctype ++
    (match scope with
     | some s => if s ≠ "" then "(" ++ s ++ ")" else ""
     | none => "") ++
    ": " ++ desc

/-- Message assembly of `analyze_changes` (source lines 641-649): the
trailing metrics suffix is appended whenever any line was added or
removed. -/
def assembleMessage (ctype : String) (scope : Option String) (desc : String)
    (ch : CodeChanges) : String :=
  if 0 < ch.lines_added + ch.lines_removed then
    baseMessage ctype scope desc ++ " " ++ metricsSuffix ch
  else baseMessage ctype scope desc

/-- Embedding of `analyze_changes` (source lines 529-660).  External
collaborators are passed as values: `pat` is the result of
`learn_from_github_commits()` (a repository read), and `codeStruct f`
models `analyze_code_structure(f, ...)['functions']`, which reads the
file system — `none` when that dict access would raise, `some b` for a
structure whose function set is non-empty iff `b`.  Any exception inside
the `try` block yields `none` (the source returns `None`); the empty-diff
check precedes the `try` block.  Console rendering is pure output and is
omitted, except for its learned-pattern dict accesses (`checkPatterns`). -/
def analyzeChanges (pat : CommitPatterns) (codeStruct : String → Option Bool)
    (diff : String) (originalContent : List (String × String)) :
    Option String :=
  if diff = "" then some "No changes to commit"
  else
    (do
      let fc ← analyzeFileChangesLines (pySplitOn diff "\n")
      let cc0 ← analyzeDiffChanges (pySplitOn diff "\n") originalContent
      let cc ← foldOpt (fun cc f =>
          if originalContent.any (fun p => p.1 = f) then
            match codeStruct f with
            | none => none
            | some b =>
                some (if b then { cc with components := cc.components ++ [f] }
                      else cc)
          else some cc) cc0 fc.modified_files
      let ctype ← (generateCommitType cc fc pat).toOption
      let cscope ← (generateCommitScope cc fc pat).toOption
      let cdesc := generateDetailedCommitDescription cc fc pat
      let _ ← (checkPatterns pat).toOption
      some (assembleMessage ctype cscope cdesc cc))

theorem mem_pySetAdd {α : Type} [DecidableEq α] (a x : α) (l : List α) :
    x ∈ pySetAdd a l ↔ x ∈ l ∨ x = a := by
  unfold pySetAdd
  split
  · next h => constructor
              · exact fun hx => Or.inl hx
              · rintro (hx | rfl)
                · exact hx
                · exact h
  · simp [List.mem_append]

theorem foldOpt_invariant {σ α : Type} (step : σ → α → Option σ) (P : σ → Prop)
    (hstep : ∀ s a s', step s a = some s' → P s → P s') :
    ∀ (l : List α) (s s' : σ), foldOpt step s l = some s' → P s → P s' := by
  intro l
  induction l with
  | nil =>
      intro s s' h hp
      simp only [foldOpt] at h
      cases h
      exact hp
  | cons a l ih =>
      intro s s' h hp
      simp only [foldOpt] at h
      cases hsa : step s a with
      | none => rw [hsa] at h; cases h
      | some s1 =>
          rw [hsa] at h
          exact ih s1 s' h (hstep s a s1 hsa hp)

/-- Concrete diff with a single `rename from A` / `rename to B` pair, used
as the instance required by C2. -/
def c2Lines : List String :=
  ["diff --git a/old_name.py b/new_name.py", "similarity index 100%",
   "rename from old_name.py", "rename to new_name.py"]

/-- Parse of `c2Lines`. -/
def c2Parsed : FileChangesRec := (analyzeFileChangesLines c2Lines).getD {}

/-- C2: for every diff the parser accepts, `modified_files` is exactly
`files` minus `added_files` minus `deleted_files` minus the old and new
paths of every recorded rename; and the single-rename diff `c2Lines` yields
exactly one renamed pair `(old_name.py, new_name.py)` with neither path in
`modified_files`. -/
theorem C2_modified_files_set :
    (∀ lines fc, analyzeFileChangesLines lines = some fc →
      ∀ f, f ∈ fc.modified_files ↔
        (f ∈ fc.files ∧ some f ∉ fc.added_files ∧ some f ∉ fc.deleted_files ∧
         f ∉ (fc.renamed_files.map Prod.fst ++ fc.renamed_files.map Prod.snd))) ∧
    (analyzeFileChangesLines c2Lines = some c2Parsed ∧
     c2Parsed.renamed_files = [("old_name.py", "new_name.py")] ∧
     "old_name.py" ∉ c2Parsed.modified_files ∧
     "new_name.py" ∉ c2Parsed.modified_files) := by
  constructor
  · intro lines fc h f
    unfold analyzeFileChangesLines at h
    cases hf : foldOpt (fileChangesStep lines) ({}, none) lines with
    | none => rw [hf] at h; cases h
    | some st =>
        rw [hf] at h
        simp only [Option.map_some'] at h
        cases h
        unfold finalizeFileChanges
        simp only [List.mem_filter, decide_eq_true_eq]
  · refine ⟨by decide, by decide, by decide, by decide⟩

/-- Witness for C2: the theorem applied to the concrete diff `c2Lines`,
showing the renamed file `new_name.py` is excluded from `modified_files`
by the set arithmetic. -/
theorem C2_witness : ¬ "new_name.py" ∈ c2Parsed.modified_files := by
  intro hmem
  have h :=
    (C2_modified_files_set.1 c2Lines c2Parsed (by decide) "new_name.py").mp hmem
  exact absurd h.2.2.2 (by decide)

/-- Renamed-pair invariant: the new path of every recorded pair comes from
the first `rename to` line of the whole diff. -/
def renamePairedWithFirst (allLines : List String)
    (st : FileChangesRec × Option String) : Prop :=
  ∀ p ∈ st.1.renamed_files,
    ∃ nl, allLines.find? (fun l => pyStartsWith "rename to" l) = some nl ∧
      (pySplitOn nl " ").get? 2 = some p.2

theorem fileChangesStep_preserves_renamePairedWithFirst
    (allLines : List String) (st : FileChangesRec × Option String)
    (line : String) (st' : FileChangesRec × Option String)
    (h : fileChangesStep allLines st line = some st')
    (hp : renamePairedWithFirst allLines st) :
    renamePairedWithFirst allLines st' := by
  unfold fileChangesStep at h
  dsimp only at h
  repeat' split at h
  any_goals cases h
  all_goals try (intro p hmem; exact hp p hmem)
  all_goals
    (intro p hmem
     rcases (mem_pySetAdd _ _ _).mp hmem with hmem' | rfl
     · exact hp p hmem'
     · exact ⟨_, by assumption, by assumption⟩)

/-- Concrete diff with two rename pairs, exhibiting the first-rename-to
pairing. -/
def c9Lines : List String :=
  ["diff --git a/a1.py b/b1.py", "rename from a1.py", "rename to b1.py",
   "diff --git a/a2.py b/b2.py", "rename from a2.py", "rename to b2.py"]

/-- Parse of `c9Lines`. -/
def c9Parsed : FileChangesRec := (analyzeFileChangesLines c9Lines).getD {}

/-- C9: every recorded renamed pair takes its new path from the first
`rename to` line appearing anywhere in the diff; in particular the
two-rename diff `c9Lines` records `(a1.py, b1.py)` and `(a2.py, b1.py)`,
both sharing the first new path `b1.py`. -/
theorem C9_rename_pairs_with_first_rename_to :
    (∀ lines fc, analyzeFileChangesLines lines = some fc →
      ∀ p ∈ fc.renamed_files,
        ∃ nl, lines.find? (fun l => pyStartsWith "rename to" l) = some nl ∧
          (pySplitOn nl " ").get? 2 = some p.2) ∧
    (analyzeFileChangesLines c9Lines = some c9Parsed ∧
     c9Parsed.renamed_files = [("a1.py", "b1.py"), ("a2.py", "b1.py")]) := by
  constructor
  · intro lines fc h p hmem
    unfold analyzeFileChangesLines at h
    cases hf : foldOpt (fileChangesStep lines) ({}, none) lines with
    | none => rw [hf] at h; cases h
    | some st =>
        rw [hf] at h
        simp only [Option.map_some'] at h
        have hinv : renamePairedWithFirst lines st :=
          foldOpt_invariant (fileChangesStep lines)
            (renamePairedWithFirst lines)
            (fileChangesStep_preserves_renamePairedWithFirst lines)
            lines ({}, none) st hf (by intro p hmem; cases hmem)
        cases h
        have : p ∈ st.1.renamed_files := by
          simpa [finalizeFileChanges] using hmem
        exact hinv p this
  · exact ⟨by decide, by decide⟩

/-- Witness for C9: the theorem applied to the two-rename diff `c9Lines`
and its second recorded pair. -/
theorem C9_witness :
    ∃ nl, c9Lines.find? (fun l => pyStartsWith "rename to" l) = some nl ∧
      (pySplitOn nl " ").get? 2 = some "b1.py" :=
  C9_rename_pairs_with_first_rename_to.1 c9Lines c9Parsed (by decide)
    ("a2.py", "b1.py") (by decide)

/-- C8: the empty diff short-circuits to the sentinel result, independently
of the learned patterns, the structure analyzer, and the original content —
i.e. before history learning, parsing, or classification contribute
anything. -/
theorem C8_empty_diff_short_circuits (pat : CommitPatterns)
    (codeStruct : String → Option Bool) (orig : List (String × String)) :
    analyzeChanges pat codeStruct "" orig = some "No changes to commit" := rfl

/-- C10: the failure path of `learn_from_github_commits` returns a dict
without the `types` key, and `generate_commit_type` applied to it raises
`KeyError` for every classification input instead of returning the chore
default. -/
theorem C10_generate_commit_type_not_total (ch : CodeChanges)
    (fc : FileChangesRec) :
    learnFailureResult.types? = none ∧
    generateCommitType ch fc learnFailureResult =
      .error (.keyError "types") :=
  ⟨rfl, rfl⟩

/-- C1 counterexample input: an added line declaring a function whose name
contains the security keyword `password`. -/
def c1Line : String := "def check_password(self):"

/-- C1: counterexample.  The line `def check_password(self):` contains a
security keyword (it matches the security rule) and a function declaration,
yet the line classifier files it under the feature category and leaves the
security category untouched, refuting the claimed security-over-feature
priority. -/
theorem C1_counterexample :
    securityPat c1Line = true ∧
    pyIn "def " c1Line = true ∧
    (analyzeLineContent c1Line "auth.py" {}).security = [] ∧
    (analyzeLineContent c1Line "auth.py" {}).features = ["auth.py"] :=
  ⟨by decide, by decide, by decide, by decide⟩

/-- C1 amended: in `analyze_line_content` the structural branches come
first, so every added line containing `def ` or `class ` is classified as a
test or a feature and never reaches the security rule; security keywords
take precedence only over the fix, performance and refactor rules that
follow them — a line that reaches the security rule (no structural, import,
docs or config rule fired) and matches it is filed under security, with the
fix, performance and refactor categories untouched, even when it also
matches their keywords. -/
theorem C1_amended :
    (∀ line file ch,
       (pyIn "def " line = true ∨ pyIn "class " line = true) →
       (analyzeLineContent line file ch).security = ch.security ∧
       ((analyzeLineContent line file ch).tests = ch.tests ++ [file] ∨
        (analyzeLineContent line file ch).features = ch.features ++ [file])) ∧
    (∀ line file ch,
       pyIn "def " line = false → pyIn "class " line = false →
       importPat line = false → docsPat line = false →
       configPat line = false → securityPat line = true →
       (analyzeLineContent line file ch).security = ch.security ++ [file] ∧
       (analyzeLineContent line file ch).fixes = ch.fixes ∧
       (analyzeLineContent line file ch).performance = ch.performance ∧
       (analyzeLineContent line file ch).refactors = ch.refactors) := by
  constructor
  · intro line file ch hdecl
    unfold analyzeLineContent
    by_cases hdef : pyIn "def " line = true
    · rw [if_pos hdef]
      dsimp only
      split
      · exact ⟨rfl, Or.inl rfl⟩
      · exact ⟨rfl, Or.inr rfl⟩
    · rcases hdecl with h | hclass
      · exact absurd h hdef
      · rw [if_neg hdef, if_pos hclass]
        dsimp only
        split
        · exact ⟨rfl, Or.inl rfl⟩
        · exact ⟨rfl, Or.inr rfl⟩
  · intro line file ch hdef hclass himp hdocs hconf hsec
    unfold analyzeLineContent
    rw [if_neg (by rw [hdef]; exact Bool.false_ne_true),
        if_neg (by rw [hclass]; exact Bool.false_ne_true),
        if_neg (by rw [himp]; exact Bool.false_ne_true),
        if_neg (by rw [hdocs]; exact Bool.false_ne_true),
        if_neg (by rw [hconf]; exact Bool.false_ne_true),
        if_pos hsec]
    exact ⟨rfl, rfl, rfl, rfl⟩

/-- C1 precedence-witness input: a line matching both the security and the
fix rule, and none of the rules evaluated before security. -/
def c1SecLine : String := "password fix"

/-- Witness for C1 amended: the structural part at a `def ` line and at a
`class ` line, and the precedence part at a line matching both security and
fix keywords, which lands in security with fixes untouched. -/
theorem C1_witness :
    ((analyzeLineContent c1Line "auth.py" {}).security =
       ({} : CodeChanges).security ∧
     ((analyzeLineContent c1Line "auth.py" {}).tests =
        ({} : CodeChanges).tests ++ ["auth.py"] ∨
      (analyzeLineContent c1Line "auth.py" {}).features =
        ({} : CodeChanges).features ++ ["auth.py"])) ∧
    ((analyzeLineContent "class AuthToken:" "auth.py" {}).security =
       ({} : CodeChanges).security ∧
     ((analyzeLineContent "class AuthToken:" "auth.py" {}).tests =
        ({} : CodeChanges).tests ++ ["auth.py"] ∨
      (analyzeLineContent "class AuthToken:" "auth.py" {}).features =
        ({} : CodeChanges).features ++ ["auth.py"])) ∧
    ((analyzeLineContent c1SecLine "a.py" {}).security =
       ({} : CodeChanges).security ++ ["a.py"] ∧
     (analyzeLineContent c1SecLine "a.py" {}).fixes =
       ({} : CodeChanges).fixes ∧
     (analyzeLineContent c1SecLine "a.py" {}).performance =
       ({} : CodeChanges).performance ∧
     (analyzeLineContent c1SecLine "a.py" {}).refactors =
       ({} : CodeChanges).refactors) :=
  ⟨C1_amended.1 c1Line "auth.py" {} (Or.inl (by decide)),
   C1_amended.1 "class AuthToken:" "auth.py" {} (Or.inr (by decide)),
   C1_amended.2 c1SecLine "a.py" {} (by decide) (by decide) (by decide)
     (by decide) (by decide) (by decide)⟩

/-- C5 counterexample input. -/
def c5Line : String := "def parse_config():"

/-- C5: counterexample.  The added line `def parse_config():` declares a
function with the `parse_` prefix, yet the classifier emits the generic
note `add function parse_config`; no specialized "add parser for config"
note exists anywhere in its output. -/
theorem C5_counterexample :
    pyStartsWith "parse_" (pyExtractName "def " c5Line) = true ∧
    (analyzeLineContent c5Line "utils/loader.py" {}).semantic_changes =
      [("utils/loader.py", ["add function parse_config"])] ∧
    ¬ "add parser for config" ∈
        ((analyzeLineContent c5Line "utils/loader.py"
            {}).semantic_changes.headD ("", [])).2 :=
  ⟨by decide, by decide, by decide⟩

/-- C5 amended: the classifier never specializes by identifier prefix — for
every added line containing `def ` whose extracted name does not contain
`test_`, the recorded note is the generic `add function X`. -/
theorem C5_amended (line file : String) (ch : CodeChanges)
    (hdef : pyIn "def " line = true)
    (hnt : pyIn "test_" (pyExtractName "def " line) = false) :
    (analyzeLineContent line file ch).features = ch.features ++ [file] ∧
    (analyzeLineContent line file ch).semantic_changes =
      updAssoc file
        (fun l => l ++ ["add function " ++ pyExtractName "def " line]) []
        ch.semantic_changes := by
  unfold analyzeLineContent
  rw [if_pos hdef]
  dsimp only
  rw [if_neg (by rw [hnt]; exact Bool.false_ne_true)]
  exact ⟨rfl, rfl⟩

/-- Witness for C5 amended, at the `def parse_config():` line. -/
theorem C5_witness :
    (analyzeLineContent c5Line "utils/loader.py" {}).features =
      ({} : CodeChanges).features ++ ["utils/loader.py"] ∧
    (analyzeLineContent c5Line "utils/loader.py" {}).semantic_changes =
      updAssoc "utils/loader.py"
        (fun l => l ++ ["add function " ++ pyExtractName "def " c5Line]) []
        ({} : CodeChanges).semantic_changes :=
  C5_amended c5Line "utils/loader.py" {} (by decide) (by decide)

theorem head_insDesc (x : String × Nat) (l : List (String × Nat)) :
    (insDesc x l).head? =
      match l.head? with
      | none => some x
      | some y => if x.2 < y.2 then some y else some x := by
  cases l with
  | nil => rfl
  | cons y ys =>
      simp only [insDesc, List.head?_cons]
      split <;> simp

theorem head_pySortedDesc (l : List (String × Nat)) :
    (pySortedDesc l).head? = mostFreq l := by
  induction l with
  | nil => rfl
  | cons x xs ih =>
      simp only [pySortedDesc, mostFreq, head_insDesc, ih]

/-- Specification-side restatement of C3's type-selection rule: first
category with a non-empty file set in the fixed priority order, then the
most frequent learned type, then the generic chore type.  Compared against
`generateCommitType`, which sorts the frequency table and takes its head. -/
def commitTypeSpec (ch : CodeChanges) (ts : List (String × Nat)) : String :=
  if ch.security ≠ [] then "🔒 security"
  else if ch.fixes ≠ [] then "🐛 fix"
  else if ch.features ≠ [] then "✨ feat"
  else if ch.refactors ≠ [] then "🔄 refactor"
  else if ch.performance ≠ [] then "⚡ perf"
  else if ch.docs ≠ [] then "📚 docs"
  else if ch.tests ≠ [] then "🧪 test"
  else if ch.style ≠ [] then "💅 style"
  else if ch.dependencies ≠ [] then "📦 deps"
  else if ch.scripts ≠ [] then "🔧 chore"
  else
    match mostFreq ts with
    | some m => m.1
    | none => "🔧 chore"

theorem generateCommitType_eq_spec (ch : CodeChanges) (fc : FileChangesRec)
    (pat : CommitPatterns) (ts : List (String × Nat))
    (hts : pat.types? = some ts) :
    generateCommitType ch fc pat = .ok (commitTypeSpec ch ts) := by
  unfold generateCommitType commitTypeSpec
  rw [hts]
  dsimp only
  rw [head_pySortedDesc]

/-- C3: whenever the patterns dict has its `types` table, the code's
commit-type selection agrees with the specification's rule — first
non-empty category in the order security > fix > feature > refactor >
performance > docs > test > style > dependency > script, then the most
frequent learned type, then "chore". -/
theorem C3_type_priority_order (ch : CodeChanges) (fc : FileChangesRec)
    (pat : CommitPatterns) (ts : List (String × Nat))
    (hts : pat.types? = some ts) :
    generateCommitType ch fc pat = .ok (commitTypeSpec ch ts) :=
  generateCommitType_eq_spec ch fc pat ts hts

/-- Learned-pattern table with only a `feat` entry, for the C3 witness. -/
def patC3 : CommitPatterns := { types? := some [("feat", 3)] }

/-- Witness for C3 at an empty classification and a one-entry type table:
the fallback picks the most frequent learned type. -/
theorem C3_witness : generateCommitType {} {} patC3 = .ok "feat" :=
  C3_type_priority_order {} {} patC3 [("feat", 3)] rfl

theorem dedup_const {α : Type} [DecidableEq α] :
    ∀ (l : List α) (d : α), l ≠ [] → (∀ x ∈ l, x = d) → l.dedup = [d] := by
  intro l
  induction l with
  | nil => intro d h _; exact absurd rfl h
  | cons a xs ih =>
      intro d _ hall
      have ha : a = d := hall a (by simp)
      subst ha
      cases xs with
      | nil => simp
      | cons b ys =>
          have hb : b = a := hall b (by simp)
          have hall' : ∀ x ∈ b :: ys, x = a := fun x hx =>
            hall x (List.mem_cons_of_mem _ hx)
          have hded : (b :: ys).dedup = [a] := ih a (by simp) hall'
          have hmem : a ∈ b :: ys := by rw [hb]; simp
          rw [List.dedup_cons_of_mem hmem, hded]

theorem eq_of_dedup_singleton {α : Type} [DecidableEq α] (l : List α) (d : α)
    (h : l.dedup = [d]) : ∀ x ∈ l, x = d := by
  intro x hx
  have hxd : x ∈ l.dedup := List.mem_dedup.mpr hx
  rw [h] at hxd
  simpa using hxd

/-- File set for the C4 counterexample: one file under `srcmod/` and one at
the repository root. -/
def fcC4 : FileChangesRec := { files := ["srcmod/x.py", "srcapp.py"] }

/-- Learned-pattern table with all keys present and empty, as produced by
learning over an empty history window. -/
def patEmptyKeys : CommitPatterns :=
  { types? := some [], scopes? := some [], descriptions? := some [],
    common_patterns? := some [] }

/-- C4: counterexample.  For files `srcmod/x.py` and `srcapp.py` the
top-level directories are `srcmod` and `""` — not shared, with empty common
prefix — and the learned scope table is empty, so the claim derives no
scope; but the code computes the common prefix over each file's first path
component (`srcmod` and the root-level file name `srcapp.py`) and returns
the scope `src`. -/
theorem C4_counterexample :
    generateCommitScope {} fcC4 patEmptyKeys = .ok (some "src") ∧
    fcC4.files.map topLevelDir = ["srcmod", ""] ∧
    pyCommonPfx (fcC4.files.map topLevelDir) = "" ∧
    patEmptyKeys.scopes? = some [] :=
  ⟨by rfl, by decide, by decide, rfl⟩

/-- C4 amended: when all files share the value of
`dirname(f).split('/')[0]` (the top-level directory, or `""` for files at
the root) that value is the scope; otherwise the scope is the longest
common prefix of the files' first path components (for a root-level file,
its whole file name) when non-empty; otherwise the most frequent learned
scope; otherwise none. -/
theorem C4_amended (ch : CodeChanges) (fc : FileChangesRec)
    (pat : CommitPatterns) (ss : List (String × Nat))
    (hs : pat.scopes? = some ss) (hne : fc.files ≠ []) :
    ((∃ d, ∀ f ∈ fc.files, topLevelDir f = d) →
       generateCommitScope ch fc pat =
         .ok (some (topLevelDir (fc.files.headD "")))) ∧
    ((¬ ∃ d, ∀ f ∈ fc.files, topLevelDir f = d) →
       (pyCommonPfx (fc.files.map firstComp) ≠ "" →
          generateCommitScope ch fc pat =
            .ok (some (pyCommonPfx (fc.files.map firstComp)))) ∧
       (pyCommonPfx (fc.files.map firstComp) = "" →
          generateCommitScope ch fc pat =
            .ok ((mostFreq ss).map Prod.fst))) := by
  constructor
  · rintro ⟨d, hd⟩
    have hmapne : fc.files.map topLevelDir ≠ [] := by
      cases hls : fc.files with
      | nil => exact absurd hls hne
      | cons a as => simp
    have hall : ∀ x ∈ fc.files.map topLevelDir, x = d := by
      intro x hx
      rcases List.mem_map.mp hx with ⟨f, hf, rfl⟩
      exact hd f hf
    have hded : (fc.files.map topLevelDir).dedup = [d] :=
      dedup_const _ d hmapne hall
    have hhead : topLevelDir (fc.files.headD "") = d := by
      cases hls : fc.files with
      | nil => exact absurd hls hne
      | cons a as =>
          have : a ∈ fc.files := by rw [hls]; simp
          simpa using hd a this
    unfold generateCommitScope
    rw [if_neg hne]
    dsimp only
    rw [hded, hhead]
    rfl
  · intro hnsh
    have hlen : (fc.files.map topLevelDir).dedup.length ≠ 1 := by
      intro h1
      rcases List.length_eq_one.mp h1 with ⟨d, hd1⟩
      refine hnsh ⟨d, fun f hf => ?_⟩
      exact eq_of_dedup_singleton _ d hd1 (topLevelDir f)
        (List.mem_map.mpr ⟨f, hf, rfl⟩)
    constructor
    · intro hpfx
      unfold generateCommitScope
      rw [if_neg hne]
      dsimp only
      rw [if_neg hlen, if_pos hpfx]
    · intro hpfx
      unfold generateCommitScope
      rw [if_neg hne]
      dsimp only
      rw [if_neg hlen, if_neg (by rw [hpfx]; exact fun h => h rfl), hs]
      dsimp only
      rw [head_pySortedDesc]
      cases mostFreq ss <;> rfl

/-- File set for the C4 witness: two files sharing the top-level directory
`src`. -/
def fcC4w : FileChangesRec := { files := ["src/a.py", "src/b.py"] }

/-- Witness for C4 amended, at a file set whose members share the top-level
directory `src`. -/
theorem C4_witness :
    generateCommitScope {} fcC4w patEmptyKeys =
      .ok (some (topLevelDir (fcC4w.files.headD ""))) :=
  (C4_amended {} fcC4w patEmptyKeys [] rfl (by decide)).1 ⟨"src", by decide⟩

/-- C7 counterexample input: a diff with a single added line. -/
def c7Diff : String := "diff --git a/m.txt b/m.txt\n+hello"

/-- Classification of `c7Diff`. -/
def c7cc : CodeChanges := (analyzeDiffChanges (pySplitOn c7Diff "\n") []).getD {}

/-- File-change record of `c7Diff`. -/
def c7fc : FileChangesRec := (analyzeFileChangesLines (pySplitOn c7Diff "\n")).getD {}

/-- C7: counterexample.  A one-line change is far below the code's only
significance threshold (50 combined lines, source line 523), and indeed its
description carries no metrics part; but the composed message still ends in
the trailing `(1+/0- lines)` metrics suffix, because `analyze_changes`
appends it for any non-zero delta (source line 648). -/
theorem C7_counterexample :
    c7cc.lines_added = 1 ∧ c7cc.lines_removed = 0 ∧
    c7cc.lines_added + c7cc.lines_removed ≤ 50 ∧
    descParts c7cc c7fc = descPartsCore c7cc c7fc ∧
    metricsSuffix c7cc = "(1+/0- lines)" ∧
    analyzeChanges patEmptyKeys (fun _ => some false) c7Diff [] =
      some "🔧 chore: update code (1+/0- lines)" :=
  ⟨by decide, by decide, by decide, by decide, by decide, by rfl⟩

/-- C7 amended: the metrics part inside the description is appended exactly
when the combined line delta exceeds the significance threshold 50, while
the final composed message carries a trailing metrics suffix whenever the
delta is non-zero — so only zero-delta messages lack it, at every delta. -/
theorem C7_amended (ch : CodeChanges) (fc : FileChangesRec)
    (t : String) (sc : Option String) (d : String) :
    (ch.lines_added + ch.lines_removed ≤ 50 →
       descParts ch fc = descPartsCore ch fc) ∧
    (50 < ch.lines_added + ch.lines_removed →
       descParts ch fc = descPartsCore ch fc ++ [metricsSuffix ch]) ∧
    (0 < ch.lines_added + ch.lines_removed →
       assembleMessage t sc d ch =
         baseMessage t sc d ++ " " ++ metricsSuffix ch) ∧
    (ch.lines_added + ch.lines_removed = 0 →
       assembleMessage t sc d ch = baseMessage t sc d) := by
  refine ⟨?_, ?_, ?_, ?_⟩
  · intro hsmall
    unfold descParts
    rw [if_neg (by omega)]
    simp
  · intro hbig
    unfold descParts
    rw [if_pos hbig]
  · intro hpos
    unfold assembleMessage
    rw [if_pos hpos]
  · intro hz
    unfold assembleMessage
    rw [if_neg (by omega)]

/-- Classification record with a combined delta above the significance
threshold, for the C7 witness. -/
def c7BigCC : CodeChanges := { lines_added := 60 }

/-- Witness for C7 amended: the description keeps no metrics part at the
one-line change of `c7Diff` but gains one at a 60-line change, while the
composed message carries the trailing suffix at the one-line change and
drops it only at a zero-delta change. -/
theorem C7_witness :
    descParts c7cc c7fc = descPartsCore c7cc c7fc ∧
    descParts c7BigCC {} = descPartsCore c7BigCC {} ++ [metricsSuffix c7BigCC] ∧
    assembleMessage "🔧 chore" (some "") "update code" c7cc =
      baseMessage "🔧 chore" (some "") "update code" ++ " " ++
        metricsSuffix c7cc ∧
    assembleMessage "🔧 chore" (some "") "update code" {} =
      baseMessage "🔧 chore" (some "") "update code" :=
  ⟨(C7_amended c7cc c7fc "🔧 chore" (some "") "update code").1 (by decide),
   (C7_amended c7BigCC {} "🔧 chore" (some "") "update code").2.1 (by decide),
   (C7_amended c7cc c7fc "🔧 chore" (some "") "update code").2.2.1 (by decide),
   (C7_amended {} {} "🔧 chore" (some "") "update code").2.2.2 (by decide)⟩

theorem foldl_id {α β : Type} (f : β → α → β) (l : List α) (b : β)
    (h : ∀ a ∈ l, ∀ x, f x a = x) : l.foldl f b = b := by
  induction l generalizing b with
  | nil => rfl
  | cons a as ih =>
      rw [List.foldl_cons, h a (by simp) b]
      exact ih b (fun a' ha' => h a' (List.mem_cons_of_mem _ ha'))

theorem snd_mem_enumFrom {α : Type} :
    ∀ (l : List α) (n : Nat) (p : Nat × α), p ∈ l.enumFrom n → p.2 ∈ l := by
  intro l
  induction l with
  | nil => intro n p h; cases h
  | cons a as ih =>
      intro n p h
      rcases List.mem_cons.mp h with rfl | h
      · simp
      · exact List.mem_cons_of_mem _ (ih (n + 1) p h)

theorem ctxFuncPass_id (file : String) (cl : List String) (ch : CodeChanges)
    (h : ∀ l ∈ cl, pyIn "def " l = false) : ctxFuncPass file cl ch = ch := by
  unfold ctxFuncPass
  apply foldl_id
  intro p hp x
  dsimp only
  rw [if_neg (by rw [h p.2 (snd_mem_enumFrom cl 0 p hp)]; exact Bool.false_ne_true)]

theorem ctxClassPass_id (file : String) (cl : List String) (ch : CodeChanges)
    (h : ∀ l ∈ cl, pyIn "class " l = false) : ctxClassPass file cl ch = ch := by
  unfold ctxClassPass
  apply foldl_id
  intro p hp x
  dsimp only
  rw [if_neg (by rw [h p.2 (snd_mem_enumFrom cl 0 p hp)]; exact Bool.false_ne_true)]

theorem ctxConfigPass_id (file : String) (cl : List String) (ch : CodeChanges)
    (h : ∀ l ∈ cl, ctxConfigKw l = false) : ctxConfigPass file cl ch = ch := by
  unfold ctxConfigPass
  apply foldl_id
  intro p hp x
  dsimp only
  rw [if_neg (by rw [h p.2 (snd_mem_enumFrom cl 0 p hp)]; exact Bool.false_ne_true)]

theorem ctxDepPass_id (file : String) (cl : List String) (ch : CodeChanges)
    (h : ∀ l ∈ cl, ctxDepKw l = false) : ctxDepPass file cl ch = ch := by
  unfold ctxDepPass
  apply foldl_id
  intro p hp x
  dsimp only
  rw [if_neg (by rw [h p.2 (snd_mem_enumFrom cl 0 p hp)]; exact Bool.false_ne_true)]

theorem ctxTestPass_id (file : String) (cl : List String) (ch : CodeChanges)
    (h : ∀ l ∈ cl, ctxTestKw l = false) : ctxTestPass file cl ch = ch := by
  unfold ctxTestPass
  apply foldl_id
  intro p hp x
  dsimp only
  rw [if_neg (by rw [h p.2 (snd_mem_enumFrom cl 0 p hp)]; exact Bool.false_ne_true)]

theorem ctxDocsPass_id (file : String) (cl : List String) (ch : CodeChanges)
    (h : ∀ l ∈ cl, ctxDocsKw l = false) : ctxDocsPass file cl ch = ch := by
  unfold ctxDocsPass
  apply foldl_id
  intro p hp x
  dsimp only
  rw [if_neg (by rw [h p.2 (snd_mem_enumFrom cl 0 p hp)]; exact Bool.false_ne_true)]

/-- A line that triggers none of the keyword rules of `analyze_context`. -/
def ctxLineInert (l : String) : Prop :=
  pyIn "def " l = false ∧ pyIn "class " l = false ∧ ctxConfigKw l = false ∧
  ctxDepKw l = false ∧ ctxTestKw l = false ∧ ctxDocsKw l = false

instance (l : String) : Decidable (ctxLineInert l) := by
  unfold ctxLineInert
  infer_instance

theorem analyzeContext_id (ch : CodeChanges) (file : String)
    (ctxl : List (LineKind × String))
    (h : ∀ p ∈ ctxl, p.1 = LineKind.context → ctxLineInert p.2) :
    analyzeContext ch file ctxl = ch := by
  unfold analyzeContext
  split
  · rfl
  · have hcl : ∀ l ∈ (ctxl.filter (fun p => p.1 = LineKind.context)).map
        (fun p => p.2), ctxLineInert l := by
      intro l hl
      rcases List.mem_map.mp hl with ⟨p, hpf, rfl⟩
      rcases List.mem_filter.mp hpf with ⟨hpmem, hpk⟩
      exact h p hpmem (of_decide_eq_true hpk)
    dsimp only
    rw [ctxFuncPass_id _ _ _ (fun l hl => (hcl l hl).1),
        ctxClassPass_id _ _ _ (fun l hl => (hcl l hl).2.1),
        ctxConfigPass_id _ _ _ (fun l hl => (hcl l hl).2.2.1),
        ctxDepPass_id _ _ _ (fun l hl => (hcl l hl).2.2.2.1),
        ctxTestPass_id _ _ _ (fun l hl => (hcl l hl).2.2.2.2.1),
        ctxDocsPass_id _ _ _ (fun l hl => (hcl l hl).2.2.2.2.2)]

theorem foldOpt_invariant_mem {σ α : Type} (step : σ → α → Option σ)
    (P : σ → Prop) :
    ∀ (l : List α),
      (∀ s, ∀ a ∈ l, ∀ s', step s a = some s' → P s → P s') →
      ∀ (s s' : σ), foldOpt step s l = some s' → P s → P s' := by
  intro l
  induction l with
  | nil =>
      intro _ s s' h hp
      simp only [foldOpt] at h
      cases h
      exact hp
  | cons a l ih =>
      intro hstep s s' h hp
      simp only [foldOpt] at h
      cases hsa : step s a with
      | none => rw [hsa] at h; cases h
      | some s1 =>
          rw [hsa] at h
          exact ih (fun s a' ha' => hstep s a' (List.mem_cons_of_mem _ ha'))
            s1 s' h (hstep s a (by simp) s1 hsa hp)

/-- Invariant used for C6: no category populated, no note recorded, no line
counted, and every collected context line is keyword-inert. -/
def c6Inv (st : CodeChanges × Option String × List (LineKind × String)) :
    Prop :=
  st.1.security = [] ∧ st.1.features = [] ∧ st.1.fixes = [] ∧
  st.1.refactors = [] ∧ st.1.performance = [] ∧ st.1.docs = [] ∧
  st.1.tests = [] ∧ st.1.style = [] ∧ st.1.dependencies = [] ∧
  st.1.scripts = [] ∧ st.1.semantic_changes = [] ∧
  st.1.lines_added = 0 ∧ st.1.lines_removed = 0 ∧
  ∀ p ∈ st.2.2, p.1 = LineKind.context → ctxLineInert p.2

theorem diffStep_preserves_c6Inv
    (st st' : CodeChanges × Option String × List (LineKind × String))
    (line : String)
    (hadd : pyStartsWith "+" line = true → pyStartsWith "+++" line = true)
    (hrm : pyStartsWith "-" line = true → pyStartsWith "---" line = true)
    (hin : pyStartsWith "diff --git" line = false → ctxLineInert line)
    (h : diffStep st line = some st') (hinv : c6Inv st) : c6Inv st' := by
  obtain ⟨h1, h2, h3, h4, h5, h6, h7, h8, h9, h10, h11, h12, h13, hctx⟩ := hinv
  unfold diffStep at h
  dsimp only at h
  by_cases hdg : pyStartsWith "diff --git" line = true
  · rw [if_pos hdg] at h
    have hflush :
        (match st.2.1 with
         | some f =>
             if st.2.2 ≠ [] then analyzeContext st.1 f st.2.2 else st.1
         | none => st.1) = st.1 := by
      cases st.2.1 with
      | none => rfl
      | some f =>
          dsimp only
          split
          · exact analyzeContext_id st.1 f st.2.2 hctx
          · rfl
    rw [hflush] at h
    cases hg : (pySplitOn line " ").get? 2 with
    | none => rw [hg] at h; cases h
    | some p =>
        rw [hg] at h
        cases h
        exact ⟨h1, h2, h3, h4, h5, h6, h7, h8, h9, h10, h11, h12, h13,
          fun q hq => absurd hq (List.not_mem_nil q)⟩
  · rw [if_neg hdg] at h
    have hdgf : pyStartsWith "diff --git" line = false := by
      simpa using hdg
    rw [if_neg (fun hc => hc.2 (hadd hc.1))] at h
    rw [if_neg (fun hc => hc.2 (hrm hc.1))] at h
    cases h
    refine ⟨h1, h2, h3, h4, h5, h6, h7, h8, h9, h10, h11, h12, h13, ?_⟩
    intro q hq hk
    rcases List.mem_append.mp hq with hq' | hq'
    · exact hctx q hq' hk
    · have : q = (LineKind.context, line) := by simpa using hq'
      subst this
      exact hin hdgf

theorem fileChangesStep_preserves_noOps (allLines : List String)
    (st st' : FileChangesRec × Option String) (line : String)
    (hm : pyStartsWith "new file mode" line = false ∧
          pyStartsWith "deleted file mode" line = false ∧
          pyStartsWith "rename from" line = false)
    (h : fileChangesStep allLines st line = some st')
    (hinv : st.1.added_files = [] ∧ st.1.deleted_files = [] ∧
            st.1.renamed_files = []) :
    st'.1.added_files = [] ∧ st'.1.deleted_files = [] ∧
    st'.1.renamed_files = [] := by
  unfold fileChangesStep at h
  dsimp only at h
  repeat' split at h
  any_goals cases h
  all_goals first
    | exact hinv
    | simp_all

/-- C6 amended: for a diff with zero added and zero removed lines, *no
file-operation marker lines*, and *no non-header line matching any
contextual keyword rule*, the composed type is the learned-history fallback
(most frequent learned type, else chore) and the composed description is
the generic fallback string.  The extra conditions are forced: context
lines and marker lines of a zero-delta diff can still populate categories,
notes and file operations (see the counterexample). -/
theorem C6_amended (lines : List String) (orig : List (String × String))
    (fc : FileChangesRec) (cc : CodeChanges) (pat : CommitPatterns)
    (ts : List (String × Nat)) (hts : pat.types? = some ts)
    (hfc : analyzeFileChangesLines lines = some fc)
    (hcc : analyzeDiffChanges lines orig = some cc)
    (hadd : ∀ l ∈ lines, pyStartsWith "+" l = true →
       pyStartsWith "+++" l = true)
    (hrm : ∀ l ∈ lines, pyStartsWith "-" l = true →
       pyStartsWith "---" l = true)
    (hinert : ∀ l ∈ lines, pyStartsWith "diff --git" l = false →
       ctxLineInert l)
    (hmark : ∀ l ∈ lines, pyStartsWith "new file mode" l = false ∧
       pyStartsWith "deleted file mode" l = false ∧
       pyStartsWith "rename from" l = false) :
    cc.lines_added = 0 ∧ cc.lines_removed = 0 ∧
    generateCommitType cc fc pat =
      .ok (match mostFreq ts with | some m => m.1 | none => "🔧 chore") ∧
    generateDetailedCommitDescription cc fc pat = "update code" := by
  -- file-operation sets of fc are empty
  have hfcinv : fc.added_files = [] ∧ fc.deleted_files = [] ∧
      fc.renamed_files = [] := by
    unfold analyzeFileChangesLines at hfc
    cases hf : foldOpt (fileChangesStep lines) ({}, none) lines with
    | none => rw [hf] at hfc; cases hfc
    | some st =>
        rw [hf] at hfc
        simp only [Option.map_some'] at hfc
        have hinv := foldOpt_invariant_mem (fileChangesStep lines)
          (fun st => st.1.added_files = [] ∧ st.1.deleted_files = [] ∧
            st.1.renamed_files = []) lines
          (fun s a ha s' hs hps =>
            fileChangesStep_preserves_noOps lines s s' a (hmark a ha) hs hps)
          ({}, none) st hf ⟨rfl, rfl, rfl⟩
        cases hfc
        exact hinv
  -- the classification record is the untouched accumulator
  obtain ⟨st, hf, hinv⟩ :
      ∃ st, foldOpt diffStep ({}, none, []) lines = some st ∧ c6Inv st := by
    unfold analyzeDiffChanges at hcc
    cases hf : foldOpt diffStep ({}, none, []) lines with
    | none => rw [hf] at hcc; cases hcc
    | some st =>
        refine ⟨st, rfl, ?_⟩
        exact foldOpt_invariant_mem diffStep c6Inv lines
          (fun s a ha s' hs hps =>
            diffStep_preserves_c6Inv s s' a (hadd a ha) (hrm a ha)
              (hinert a ha) hs hps)
          ({}, none, []) st hf
          ⟨rfl, rfl, rfl, rfl, rfl, rfl, rfl, rfl, rfl, rfl, rfl, rfl, rfl,
           fun q hq => absurd hq (List.not_mem_nil q)⟩
  obtain ⟨h1, h2, h3, h4, h5, h6, h7, h8, h9, h10, h11, h12, h13, hctx⟩ := hinv
  have hccEq : cc = st.1 := by
    unfold analyzeDiffChanges at hcc
    rw [hf] at hcc
    simp only [Option.map_some'] at hcc
    cases hcc
    cases st.2.1 with
    | none => rfl
    | some f =>
        dsimp only
        split
        · exact analyzeContext_id st.1 f st.2.2 hctx
        · rfl
  subst hccEq
  refine ⟨h12, h13, ?_, ?_⟩
  · rw [generateCommitType_eq_spec st.1 fc pat ts hts]
    unfold commitTypeSpec
    rw [if_neg (fun hne => hne h1), if_neg (fun hne => hne h3),
        if_neg (fun hne => hne h2), if_neg (fun hne => hne h4),
        if_neg (fun hne => hne h5), if_neg (fun hne => hne h6),
        if_neg (fun hne => hne h7), if_neg (fun hne => hne h8),
        if_neg (fun hne => hne h9), if_neg (fun hne => hne h10)]
  · unfold generateDetailedCommitDescription descParts descPartsCore
      perFileParts fileChangesMap fileOpsParts
    rw [h11, h12, h13, hfcinv.1, hfcinv.2.1, hfcinv.2.2]
    simp
    exact fun hne => absurd rfl hne

/-- C6 counterexample input: a rename-only diff with zero added and zero
removed lines whose context lines contain contextual keywords. -/
def c6Lines : List String :=
  ["diff --git a/config.py b/settings.py", "similarity index 100%",
   "rename from config.py", "rename to settings.py"]

/-- Classification of `c6Lines`. -/
def c6cc : CodeChanges := (analyzeDiffChanges c6Lines []).getD {}

/-- File-change record of `c6Lines`. -/
def c6fc : FileChangesRec := (analyzeFileChangesLines c6Lines).getD {}

/-- C6: counterexample.  The rename-only diff `c6Lines` has zero added and
zero removed lines, yet the context analyzer matches `from ` in
`rename from config.py` (dependency rule) and `config`/`settings` in the
rename lines (configuration rule), so the composed type is `📦 deps` — not
the fallback type — and the description is assembled from the harvested
notes and the rename summary — not the generic fallback string. -/
theorem C6_counterexample :
    analyzeDiffChanges c6Lines [] = some c6cc ∧
    analyzeFileChangesLines c6Lines = some c6fc ∧
    c6cc.lines_added = 0 ∧ c6cc.lines_removed = 0 ∧
    generateCommitType c6cc c6fc patEmptyKeys = .ok "📦 deps" ∧
    generateDetailedCommitDescription c6cc c6fc patEmptyKeys =
      "config.py: add  (2 changes); files: rename config.py → settings.py" :=
  ⟨by decide, by decide, by decide, by decide, by rfl, by decide⟩

/-- C6 witness input: a mode-change-only diff satisfying all side
conditions of the amended claim. -/
def c6wLines : List String :=
  ["diff --git a/m.txt b/m.txt", "old mode 100644", "new mode 100755"]

/-- Classification of `c6wLines`. -/
def c6wcc : CodeChanges := (analyzeDiffChanges c6wLines []).getD {}

/-- File-change record of `c6wLines`. -/
def c6wfc : FileChangesRec := (analyzeFileChangesLines c6wLines).getD {}

/-- Witness for C6 amended, at a mode-change-only diff. -/
theorem C6_witness :
    c6wcc.lines_added = 0 ∧ c6wcc.lines_removed = 0 ∧
    generateCommitType c6wcc c6wfc patEmptyKeys =
      .ok (match mostFreq ([] : List (String × Nat)) with
           | some m => m.1
           | none => "🔧 chore") ∧
    generateDetailedCommitDescription c6wcc c6wfc patEmptyKeys =
      "update code" :=
  C6_amended c6wLines [] c6wfc c6wcc patEmptyKeys [] rfl (by decide)
    (by decide) (by decide) (by decide) (by decide) (by decide)
